import Mathlib

/-!
Verification of the MultiBucket provider-selection and usage-accounting engine
(`index.js`, class `MultiBucket`) against its natural-language specification.

The JavaScript source is shallowly embedded: the mutable instance state
(`providers`, `currentProviderIndex`, `providerUsage`, `loadBalanceStrategy`,
`defaultExpiry`) becomes an explicit state record threaded through the
operations; `Date.now()` and `Math.random()` become explicit parameters;
thrown exceptions become `Except.error` carrying the thrown message.

JavaScript numbers are modelled as exact fractions (`Frac`): an integer
numerator/denominator pair whose arithmetic never normalizes, so every
operation kernel-reduces.  On the inputs exercised here (integer timestamps,
positive rate limits, small weights) this agrees with IEEE doubles.
-/

namespace MB

/-- Frac is an exact fraction: the JS number `num / den`.  All constructed
values keep a positive denominator as long as divisors are positive. -/
structure Frac where
  num : ℤ
  den : ℤ
  deriving Repr, DecidableEq

def Frac.ofInt (n : ℤ) : Frac := ⟨n, 1⟩

instance {ε α : Type} [DecidableEq ε] [DecidableEq α] : DecidableEq (Except ε α) := fun x y =>
  match x, y with
  | Except.error a, Except.error b => decidable_of_iff (a = b) (by simp)
  | Except.error _, Except.ok _ => isFalse (by simp)
  | Except.ok _, Except.error _ => isFalse (by simp)
  | Except.ok a, Except.ok b => decidable_of_iff (a = b) (by simp)

def Frac.add (a b : Frac) : Frac := ⟨a.num * b.den + b.num * a.den, a.den * b.den⟩

def Frac.sub (a b : Frac) : Frac := ⟨a.num * b.den - b.num * a.den, a.den * b.den⟩

def Frac.mul (a b : Frac) : Frac := ⟨a.num * b.num, a.den * b.den⟩

def Frac.div (a b : Frac) : Frac := ⟨a.num * b.den, a.den * b.num⟩

/-- Lt a b means the rational value of `a` is strictly below that of `b`
(for nonzero denominators), stated multiplicatively so it is executable. -/
def Frac.Lt (a b : Frac) : Prop :=
  0 < (b.num * a.den - a.num * b.den) * (a.den * b.den)

instance (a b : Frac) : Decidable (Frac.Lt a b) :=
  inferInstanceAs (Decidable (0 < _))

instance : Add Frac := ⟨Frac.add⟩

instance : Sub Frac := ⟨Frac.sub⟩

instance : Mul Frac := ⟨Frac.mul⟩

instance : Div Frac := ⟨Frac.div⟩

instance : LT Frac := ⟨Frac.Lt⟩

instance (a b : Frac) : Decidable (a < b) :=
  inferInstanceAs (Decidable (Frac.Lt a b))

instance : OfNat Frac n := ⟨⟨(n : ℤ), 1⟩⟩

/-- toRat interprets a Frac as the rational number it denotes. -/
def Frac.toRat (a : Frac) : ℚ := (a.num : ℚ) / (a.den : ℚ)

/-- jsOrF models the JavaScript expression `x || d` on an optional numeric
field: `undefined` and `0` are falsy and yield the default `d`. -/
def jsOrF (x : Option Frac) (d : Frac) : Frac :=
  match x with
  | none => d
  | some v => if v.num = 0 then d else v

/-- Provider mirrors one entry of `this.providers` (a provider configuration
object); absent optional fields are `none` / the empty string. -/
structure Provider where
  id : String
  type : String
  bucket : String
  region : String := ""
  endpoint : String := ""
  weight : Option Frac := none
  rateLimit : Option Frac := none
  publicUrlBase : Option String := none
  deriving Repr, DecidableEq

/-- Usage mirrors one value of `this.providerUsage` (requestCount,
errorCount, lastUsed, rateLimit). -/
structure Usage where
  requestCount : ℕ
  errorCount : ℕ
  lastUsed : Frac
  rateLimit : Frac
  deriving Repr, DecidableEq

/-- UsageMap models the JS object `this.providerUsage`: an insertion-ordered
association list with unique keys. -/
abbrev UsageMap : Type := List (String × Usage)

/-- getUsage models reading `this.providerUsage[k]`: `none` is JS
`undefined`. -/
def getUsage (m : UsageMap) (k : String) : Option Usage :=
  match m.find? (fun kv => kv.1 == k) with
  | some kv => some kv.2
  | none => none

/-- setUsage models the assignment `this.providerUsage[k] = v`: an existing
key is updated in place, a new key is appended. -/
def setUsage (m : UsageMap) (k : String) (v : Usage) : UsageMap :=
  match m with
  | [] => [(k, v)]
  | kv :: rest => if kv.1 == k then (k, v) :: rest else kv :: setUsage rest k v

/-- usageOf is `getUsage` with a junk default.  The source dereferences
`this.providerUsage[id]` without a check and would throw on a missing id;
every reachable state has an entry for every configured provider id, and all
theorems below are stated on such states, so the default is never exercised. -/
def usageOf (m : UsageMap) (k : String) : Usage :=
  (getUsage m k).getD { requestCount := 0, errorCount := 0, lastUsed := 0, rateLimit := 1000 }

/-- MBState is the mutable instance state of a `MultiBucket` object. -/
structure MBState where
  providers : List Provider
  loadBalanceStrategy : String
  defaultExpiry : ℕ
  currentProviderIndex : ℕ
  providerUsage : UsageMap
  deriving Repr, DecidableEq

/-- initUsageRecord is the freshly zeroed usage record created for a
provider, copying `provider.rateLimit || 1000`. -/
def initUsageRecord (p : Provider) : Usage :=
  { requestCount := 0, errorCount := 0, lastUsed := 0, rateLimit := jsOrF p.rateLimit 1000 }

/-- mkMultiBucket embeds the constructor: it stores the options and zeroes a
usage record per provider. -/
def mkMultiBucket (providers : List Provider) (strategy : String) (defaultExpiry : ℕ) : MBState :=
  { providers := providers
    loadBalanceStrategy := strategy
    defaultExpiry := defaultExpiry
    currentProviderIndex := 0
    providerUsage := providers.foldl (fun m p => setUsage m p.id (initUsageRecord p)) [] }

/-- errRate is the per-provider error rate computed by the least-errors
strategy: `errorCount / (requestCount || 1)`. -/
def errRate (m : UsageMap) (p : Provider) : Frac :=
  Frac.div (Frac.ofInt (usageOf m p.id).errorCount)
    (Frac.ofInt (if (usageOf m p.id).requestCount = 0 then 1 else (usageOf m p.id).requestCount))

/-- weightedScan is the cumulative scan of the weighted-random strategy:
the first provider whose weight exceeds the remaining draw wins, the draw
shrinking by each skipped provider's weight (`provider.weight || 1`). -/
def weightedScan (ps : List Provider) (random : Frac) : Option Provider :=
  match ps with
  | [] => none
  | p :: rest =>
    if random < jsOrF p.weight 1 then some p
    else weightedScan rest (random - jsOrF p.weight 1)

/-- strategyCandidate is the `switch (this.loadBalanceStrategy)` block of
`getStorageProvider`: it produces the strategy's candidate and (for
round-robin) advances the cursor.  `rand01` is the `Math.random()` draw. -/
def strategyCandidate (s : MBState) (rand01 : Frac) : Except String (Provider × MBState) :=
  match s.providers with
  | [] => Except.error "No storage providers configured"
  | p0 :: _ =>
    match s.loadBalanceStrategy with
    | "round-robin" =>
      match s.providers[s.currentProviderIndex]? with
      | none => Except.error "TypeError: selected provider is undefined"
      | some p =>
        Except.ok (p, { s with currentProviderIndex := (s.currentProviderIndex + 1) % s.providers.length })
    | "least-used" =>
      Except.ok (s.providers.foldl (fun least current =>
        if (usageOf s.providerUsage current.id).requestCount < (usageOf s.providerUsage least.id).requestCount
        then current else least) p0, s)
    | "least-errors" =>
      Except.ok (s.providers.foldl (fun least current =>
        if Frac.Lt (errRate s.providerUsage current) (errRate s.providerUsage least)
        then current else least) p0, s)
    | "weighted-random" =>
      Except.ok ((weightedScan s.providers
        (rand01 * s.providers.foldl (fun sum p => sum + jsOrF p.weight 1) 0)).getD p0, s)
    | _ => Except.ok (p0, s)

/-- rateLimited is the gate test `now - usage.lastUsed < 1000 / usage.rateLimit`. -/
def rateLimited (m : UsageMap) (now : Frac) (pid : String) : Prop :=
  (now - (usageOf m pid).lastUsed) < (1000 : Frac) / (usageOf m pid).rateLimit

instance (m : UsageMap) (now : Frac) (pid : String) : Decidable (rateLimited m now pid) :=
  inferInstanceAs (Decidable (Frac.Lt _ _))

/-- getStorageProvider embeds the selector.  Faithful detail: the usage
record mutated at the end is the one bound to the strategy candidate BEFORE
the rate-limit substitution (`const providerUsage = this.providerUsage[selectedProvider.id]`
is captured before `selectedProvider` may be reassigned). -/
def getStorageProvider (s : MBState) (now rand01 : Frac) : Except String (Provider × MBState) :=
  if s.providers.length = 0 then Except.error "No storage providers configured"
  else
    match strategyCandidate s rand01 with
    | Except.error e => Except.error e
    | Except.ok (cand, s1) =>
      let u := usageOf s1.providerUsage cand.id
      let selected :=
        if rateLimited s1.providerUsage now cand.id then
          match s1.providers.find? (fun p => decide (¬ rateLimited s1.providerUsage now p.id)) with
          | some p => p
          | none => cand
        else cand
      let u2 : Usage := { u with requestCount := u.requestCount + 1, lastUsed := now }
      Except.ok (selected, { s1 with providerUsage := setUsage s1.providerUsage cand.id u2 })

/-- ProviderPatch is one entry of an incoming `configData.providers` list:
a partial provider object merged over an existing one (absent fields are
retained from the existing provider). -/
structure ProviderPatch where
  id : String
  type : Option String := none
  bucket : Option String := none
  region : Option String := none
  endpoint : Option String := none
  weight : Option Frac := none
  rateLimit : Option Frac := none
  publicUrlBase : Option String := none
  deriving Repr, DecidableEq

/-- mergeProvider is the spread merge `{ ...existing, ...newProvider }`. -/
def mergeProvider (p : Provider) (np : ProviderPatch) : Provider :=
  { id := np.id
    type := match np.type with | some t => t | none => p.type
    bucket := match np.bucket with | some b => b | none => p.bucket
    region := match np.region with | some r => r | none => p.region
    endpoint := match np.endpoint with | some e => e | none => p.endpoint
    weight := match np.weight with | some w => some w | none => p.weight
    rateLimit := match np.rateLimit with | some r => some r | none => p.rateLimit
    publicUrlBase := match np.publicUrlBase with | some b => some b | none => p.publicUrlBase }

/-- providerOfPatch is the raw patch object pushed onto `this.providers`
when no existing provider has its id. -/
def providerOfPatch (np : ProviderPatch) : Provider :=
  { id := np.id
    type := np.type.getD ""
    bucket := np.bucket.getD ""
    region := np.region.getD ""
    endpoint := np.endpoint.getD ""
    weight := np.weight
    rateLimit := np.rateLimit
    publicUrlBase := np.publicUrlBase }

/-- updateFirst replaces the first provider whose id matches the patch
(the source locates it with `findIndex` and assigns at that index). -/
def updateFirst (ps : List Provider) (np : ProviderPatch) : List Provider :=
  match ps with
  | [] => []
  | p :: rest => if p.id == np.id then mergeProvider p np :: rest else p :: updateFirst rest np

/-- ConfigData is the payload accepted by `updateConfig`. -/
structure ConfigData where
  providers : Option (List ProviderPatch) := none
  removeStaleProviders : Bool := false
  loadBalanceStrategy : Option String := none
  defaultExpiry : Option ℕ := none
  deriving Repr, DecidableEq

/-- applyPatch is the per-incoming-provider step of `updateConfig`: merge
over the first id match, or push the patch as a new provider together with
a freshly zeroed usage record copying `rateLimit || 1000`. -/
def applyPatch (st : MBState) (np : ProviderPatch) : MBState :=
  if st.providers.any (fun p => p.id == np.id) then
    { st with providers := updateFirst st.providers np }
  else
    { st with providers := st.providers ++ [providerOfPatch np],
              providerUsage := setUsage st.providerUsage np.id
                { requestCount := 0, errorCount := 0, lastUsed := 0,
                  rateLimit := jsOrF np.rateLimit 1000 } }

/-- updateConfig embeds the config merge: patch or insert each incoming
provider (a fresh usage record only for inserts), then optionally filter out
providers absent from the incoming id list (the usage map is not filtered),
then overwrite strategy and expiry when truthy. -/
def updateConfig (s : MBState) (cfg : ConfigData) : MBState :=
  let s1 :=
    match cfg.providers with
    | none => s
    | some plist =>
      let merged := plist.foldl applyPatch s
      if cfg.removeStaleProviders then
        { merged with providers := merged.providers.filter (fun p => (plist.map ProviderPatch.id).contains p.id) }
      else merged
  let s2 :=
    match cfg.loadBalanceStrategy with
    | some str => if str = "" then s1 else { s1 with loadBalanceStrategy := str }
    | none => s1
  match cfg.defaultExpiry with
  | some e => if e = 0 then s2 else { s2 with defaultExpiry := e }
  | none => s2

/-- pad4 left-pads a digit string to width 4 with zeros. -/
def pad4 (s : String) : String :=
  if s.length ≥ 4 then s else String.mk (List.replicate (4 - s.length) '0') ++ s

/-- toFixed4 formats a nonnegative fraction with positive denominator the
way `Number.prototype.toFixed(4)` does: round the value times 10000 to the
nearest integer, half away from zero, and print with 4 decimals. -/
def toFixed4 (q : Frac) : String :=
  let scaled : ℤ := Int.fdiv (q.num * 20000 + q.den) (2 * q.den)
  toString (Int.ediv scaled 10000) ++ "." ++ pad4 (toString (Int.emod scaled 10000).toNat)

/-- ErrorRateVal models the heterogeneous `errorRate` field: the source
returns a string from `toFixed(4)` when `requestCount > 0` and the bare
number `0` otherwise. -/
inductive ErrorRateVal where
  | str (s : String)
  | num (n : ℕ)
  deriving Repr, DecidableEq

/-- ProviderStat is one entry of `getStats().providerStats`. -/
structure ProviderStat where
  id : String
  type : String
  requestCount : ℕ
  errorCount : ℕ
  errorRate : ErrorRateVal
  deriving Repr, DecidableEq

/-- Stats is the result of `getStats()`. -/
structure Stats where
  providerCount : ℕ
  totalRequests : ℕ
  providerStats : List ProviderStat
  deriving Repr, DecidableEq

/-- getStats embeds `getStats()`: `totalRequests` sums `requestCount` over
ALL usage records (`Object.values(this.providerUsage)`), while
`providerStats` maps over the current provider list. -/
def getStats (s : MBState) : Stats :=
  { providerCount := s.providers.length
    totalRequests := s.providerUsage.foldl (fun sum kv => sum + kv.2.requestCount) 0
    providerStats := s.providers.map (fun p =>
      { id := p.id
        type := p.type
        requestCount := (usageOf s.providerUsage p.id).requestCount
        errorCount := (usageOf s.providerUsage p.id).errorCount
        errorRate :=
          if (usageOf s.providerUsage p.id).requestCount > 0 then
            ErrorRateVal.str (toFixed4 (Frac.div
              (Frac.ofInt (usageOf s.providerUsage p.id).errorCount)
              (Frac.ofInt (usageOf s.providerUsage p.id).requestCount)))
          else ErrorRateVal.num 0 })}

/-- stripSlashes models `path.replace(/^\/|\/$/g, '')`: one leading and one
trailing slash are removed. -/
def stripSlashes (s : String) : String :=
  let s1 := if s.startsWith "/" then s.drop 1 else s
  if s1.endsWith "/" then s1.dropRight 1 else s1

/-- stripTrailingSlash models `publicUrlBase.replace(/\/$/g, '')`. -/
def stripTrailingSlash (s : String) : String :=
  if s.endsWith "/" then s.dropRight 1 else s

/-- UploadOptions is the options object of `generateUploadUrl`. -/
structure UploadOptions where
  filename : String
  contentType : String
  expiry : Option ℕ := none
  path : Option String := none
  providerId : Option String := none
  deriving Repr, DecidableEq

/-- UploadResult is the value resolved by `generateUploadUrl`; `expires` is
kept as the millisecond timestamp `Date.now() + expiry * 1000` whose ISO
rendering the source returns. -/
structure UploadResult where
  uploadUrl : String
  publicUrl : Option String
  key : String
  bucket : String
  provider : String
  expires : Frac
  deriving Repr, DecidableEq

/-- supportedType is the type test made by `createClient`; any other type
throws `Unsupported provider type`. -/
def supportedType (p : Provider) : Prop := p.type = "s3" ∨ p.type = "r2"

instance (p : Provider) : Decidable (supportedType p) :=
  inferInstanceAs (Decidable (_ ∨ _))

/-- publicUrlFor derives the public URL of an uploaded object: S3 providers
get the vendor pattern unless `publicUrlBase` overrides it; R2 providers
have one only when `publicUrlBase` is set (empty string is falsy). -/
def publicUrlFor (p : Provider) (key : String) : Option String :=
  if p.type = "s3" then
    match p.publicUrlBase with
    | some b =>
      if b = "" then some ("https://" ++ p.bucket ++ ".s3." ++ p.region ++ ".amazonaws.com/" ++ key)
      else some (stripTrailingSlash b ++ "/" ++ key)
    | none => some ("https://" ++ p.bucket ++ ".s3." ++ p.region ++ ".amazonaws.com/" ++ key)
  else if p.type = "r2" then
    match p.publicUrlBase with
    | some b => if b = "" then none else some (stripTrailingSlash b ++ "/" ++ key)
    | none => none
  else none

/-- generateUploadUrl embeds the upload-URL generator.  External effects are
parameters: `uniqueId` is the `crypto.randomUUID()` value and `sign` the
AWS presigner (`getSignedUrl`) as a function of bucket, key and expiry.
The state is returned alongside the outcome because in the source the
selector's mutations persist even when a later step throws. -/
def generateUploadUrl (s : MBState) (opts : UploadOptions) (now rand01 : Frac)
    (uniqueId : String) (sign : String → String → ℕ → String) :
    Except String UploadResult × MBState :=
  let pidGiven : Bool := match opts.providerId with | some pid => pid != "" | none => false
  let resolved : Except String (Provider × MBState) :=
    if pidGiven then
      match s.providers.find? (fun p => p.id == opts.providerId.getD "") with
      | some p => Except.ok (p, s)
      | none => Except.error ("Provider not found: " ++ opts.providerId.getD "")
    else getStorageProvider s now rand01
  match resolved with
  | Except.error e => (Except.error ("Failed to generate upload URL: " ++ e), s)
  | Except.ok (provider, s1) =>
    if supportedType provider then
      let expiry := match opts.expiry with
        | some e => if e = 0 then s1.defaultExpiry else e
        | none => s1.defaultExpiry
      let key := match opts.path with
        | some pth =>
          if pth = "" then uniqueId ++ "-" ++ opts.filename
          else stripSlashes pth ++ "/" ++ uniqueId ++ "-" ++ opts.filename
        | none => uniqueId ++ "-" ++ opts.filename
      (Except.ok
        { uploadUrl := sign provider.bucket key expiry
          publicUrl := publicUrlFor provider key
          key := key
          bucket := provider.bucket
          provider := provider.id
          expires := now + Frac.ofInt (expiry * 1000) }, s1)
    else
      (Except.error ("Failed to generate upload URL: Unsupported provider type: " ++ provider.type), s1)

/-- specErrRate is the SPEC's formula for the least-errors rate,
`errorCount / max(requestCount, 1)`, written over ℚ; it is compared with
the source-derived `errRate` in the refinement theorems. -/
def specErrRate (m : UsageMap) (p : Provider) : ℚ :=
  ((usageOf m p.id).errorCount : ℚ) / max ((usageOf m p.id).requestCount : ℚ) 1

/-- keysAligned says the usage map holds exactly the configured provider
ids, in configuration order; it holds in every state reachable without the
stale-removal defect. -/
def keysAligned (s : MBState) : Prop :=
  s.providerUsage.map Prod.fst = s.providers.map Provider.id

instance (s : MBState) : Decidable (keysAligned s) :=
  inferInstanceAs (Decidable (_ = _))

/-- runSelections performs one `getStorageProvider` call per listed
timestamp (with a zero random draw), accumulating the returned provider
ids; it is the harness for the multi-call scenarios. -/
def runSelections (s : MBState) (times : List Frac) : List String × MBState :=
  times.foldl (fun acc t =>
    match getStorageProvider acc.2 t 0 with
    | Except.ok (p, s2) => (acc.1 ++ [p.id], s2)
    | Except.error _ => (acc.1, acc.2)) ([], s)

end MB

namespace MB

theorem getUsage_setUsage_self (m : UsageMap) (k : String) (v : Usage) :
    getUsage (setUsage m k v) k = some v := by
  induction m with
  | nil => simp [setUsage, getUsage]
  | cons kv rest ih =>
    by_cases h : kv.1 = k
    · simp [setUsage, getUsage, h]
    · simpa [setUsage, getUsage, h] using ih

theorem getUsage_setUsage_ne (m : UsageMap) (k k2 : String) (v : Usage) (h : k ≠ k2) :
    getUsage (setUsage m k v) k2 = getUsage m k2 := by
  induction m with
  | nil => simp [setUsage, getUsage, h]
  | cons kv rest ih =>
    by_cases hk : kv.1 = k
    · simp [setUsage, getUsage, hk, h]
    · by_cases hk2 : kv.1 = k2
      · simp [setUsage, getUsage, hk, hk2, Ne.symm h]
      · simpa [setUsage, getUsage, hk, hk2] using ih

/-- strategyCandidate never changes the provider list, the usage map, the
strategy or the default expiry: only the round-robin cursor moves. -/
theorem strategyCandidate_preserves (s : MBState) (rand01 : Frac) (c : Provider) (s1 : MBState)
    (h : strategyCandidate s rand01 = Except.ok (c, s1)) :
    s1.providers = s.providers ∧ s1.providerUsage = s.providerUsage ∧
    s1.loadBalanceStrategy = s.loadBalanceStrategy ∧ s1.defaultExpiry = s.defaultExpiry := by
  unfold strategyCandidate at h
  split at h
  · exact absurd h (by simp)
  · split at h
    · split at h
      · exact absurd h (by simp)
      · injection h with h1
        injection h1 with h2 h3
        subst h3
        simp
    · injection h with h1
      injection h1 with h2 h3
      subst h3
      simp
    · injection h with h1
      injection h1 with h2 h3
      subst h3
      simp
    · injection h with h1
      injection h1 with h2 h3
      subst h3
      simp
    · injection h with h1
      injection h1 with h2 h3
      subst h3
      simp

/-- find_first characterizes a successful `List.find?`: the hit is in the
list and every earlier element fails the predicate. -/
theorem find_first {α : Type} (pr : α → Bool) (l : List α) (a : α)
    (h : l.find? pr = some a) :
    ∃ pre post, l = pre ++ a :: post ∧ pr a = true ∧ ∀ q ∈ pre, pr q = false := by
  induction l with
  | nil => simp [List.find?] at h
  | cons b t ih =>
    cases hb : pr b with
    | true =>
      rw [List.find?_cons_of_pos _ hb] at h
      injection h with h1
      subst h1
      exact ⟨[], t, rfl, hb, by simp⟩
    | false =>
      rw [List.find?_cons_of_neg _ (by simp [hb])] at h
      rcases ih h with ⟨pre, post, hl, hpa, hpre⟩
      refine ⟨b :: pre, post, by simp [hl], hpa, ?_⟩
      intro q hq
      rcases List.mem_cons.mp hq with h1 | h1
      · subst h1
        exact hb
      · exact hpre q h1

/-- C5: for every strategy value, calling getStorageProvider on an empty
registry raises the `No storage providers configured` error and, since no
successor state is produced, leaves the session state unchanged. -/
theorem emptyRegistry_error (s : MBState) (now rand01 : Frac) (h : s.providers = []) :
    getStorageProvider s now rand01 = Except.error "No storage providers configured" := by
  simp [getStorageProvider, h]

def emptyState : MBState :=
  { providers := [], loadBalanceStrategy := "weighted-random", defaultExpiry := 3600,
    currentProviderIndex := 0, providerUsage := [] }

theorem emptyRegistry_error_witness :
    emptyState.providers = [] ∧
    getStorageProvider emptyState 1000 0 = Except.error "No storage providers configured" :=
  ⟨rfl, emptyRegistry_error emptyState 1000 0 rfl⟩

def c1s : MBState :=
  { providers := [{ id := "test-s3", type := "s3", bucket := "bA" },
                  { id := "test-r2", type := "r2", bucket := "bB" }],
    loadBalanceStrategy := "round-robin", defaultExpiry := 3600,
    currentProviderIndex := 0,
    providerUsage := [("test-s3", { requestCount := 3, errorCount := 0, lastUsed := 1000, rateLimit := 1000 }),
                      ("test-r2", { requestCount := 5, errorCount := 0, lastUsed := 0, rateLimit := 1000 })] }

/-- C1: when the rate-limit gate substitutes the candidate, the usage
record that gets incremented is the ORIGINAL candidate's, not the returned
provider's: here round-robin picks test-s3 (just used at t=1000, so gated),
the gate substitutes test-r2, getStorageProvider returns test-r2, yet
test-s3's requestCount goes 3 to 4 while test-r2's stays 5 with lastUsed
still 0. -/
theorem aliasedUpdate_bug :
    (getStorageProvider c1s 1000 0).toOption.map (fun r => r.1.id) = some "test-r2" ∧
    (getStorageProvider c1s 1000 0).toOption.map
      (fun r => usageOf r.2.providerUsage "test-s3") =
      some { requestCount := 4, errorCount := 0, lastUsed := 1000, rateLimit := 1000 } ∧
    (getStorageProvider c1s 1000 0).toOption.map
      (fun r => usageOf r.2.providerUsage "test-r2") =
      some { requestCount := 5, errorCount := 0, lastUsed := 0, rateLimit := 1000 } := by
  refine ⟨by decide, by decide, by decide⟩

def c2s : MBState :=
  mkMultiBucket
    [{ id := "test-s3", type := "s3", bucket := "bA", weight := some 1 },
     { id := "test-r2", type := "r2", bucket := "bB", weight := some ⟨0, 1⟩ }]
    "weighted-random" 3600

/-- C2: with weights 1 and 0, `weight || 1` turns the zero weight into 1,
so totalWeight is 2 and the draw `Math.random() = 3/4` (cumulative value
1.5, inside `[0, totalWeight)`) selects the zero-weight provider test-r2 —
refuting that a zero-weight provider is never returned. -/
theorem zeroWeight_selected :
    (getStorageProvider c2s 1000 ⟨3, 4⟩).toOption.map (fun r => r.1.id) = some "test-r2" ∧
    (c2s.providers.find? (fun p => p.id == "test-r2")).map Provider.weight = some (some ⟨0, 1⟩) := by
  refine ⟨by decide, by decide⟩

theorem applyPatch_usage_other (st : MBState) (np : ProviderPatch) (X : String) (h : np.id ≠ X) :
    getUsage (applyPatch st np).providerUsage X = getUsage st.providerUsage X := by
  unfold applyPatch
  split
  · rfl
  · exact getUsage_setUsage_ne _ _ _ _ h

theorem foldPatch_usage_other (plist : List ProviderPatch) (X : String)
    (hX : X ∉ plist.map ProviderPatch.id) :
    ∀ st : MBState, getUsage ((plist.foldl applyPatch st).providerUsage) X = getUsage st.providerUsage X := by
  induction plist with
  | nil => intro st; rfl
  | cons np rest ih =>
    intro st
    have hnp : np.id ≠ X := by
      intro hc
      exact hX (by simp [hc])
    have hrest : X ∉ rest.map ProviderPatch.id := by
      intro hc
      exact hX (by simp [hc])
    rw [List.foldl_cons, ih hrest, applyPatch_usage_other st np X hnp]

/-- updateConfig never deletes a usage-map entry: the final usage map is
exactly the one produced by the merge fold, whatever the stale-removal
flag, strategy or expiry fields say. -/
theorem updateConfig_usage (s : MBState) (cfg : ConfigData) :
    (updateConfig s cfg).providerUsage =
      (match cfg.providers with
       | none => s
       | some plist => plist.foldl applyPatch s).providerUsage := by
  unfold updateConfig
  cases cfg.providers with
  | none =>
    cases cfg.loadBalanceStrategy with
    | none =>
      cases cfg.defaultExpiry with
      | none => rfl
      | some e => by_cases he : e = 0 <;> simp [he]
    | some str =>
      cases cfg.defaultExpiry with
      | none => by_cases hs : str = "" <;> simp [hs]
      | some e => by_cases hs : str = "" <;> by_cases he : e = 0 <;> simp [hs, he]
  | some plist =>
    cases cfg.loadBalanceStrategy with
    | none =>
      cases cfg.defaultExpiry with
      | none => cases hr : cfg.removeStaleProviders <;> simp [hr]
      | some e => cases hr : cfg.removeStaleProviders <;> by_cases he : e = 0 <;> simp [hr, he]
    | some str =>
      cases cfg.defaultExpiry with
      | none => cases hr : cfg.removeStaleProviders <;> by_cases hs : str = "" <;> simp [hr, hs]
      | some e =>
        cases hr : cfg.removeStaleProviders <;> by_cases hs : str = "" <;> by_cases he : e = 0 <;>
          simp [hr, hs, he]

/-- updateConfig with the stale flag set filters the provider list down to
the incoming ids (later fields only adjust strategy and expiry). -/
theorem updateConfig_providers_stale (s : MBState) (plist : List ProviderPatch)
    (strat : Option String) (de : Option ℕ) :
    (updateConfig s { providers := some plist, removeStaleProviders := true,
                      loadBalanceStrategy := strat, defaultExpiry := de }).providers =
      (plist.foldl applyPatch s).providers.filter (fun p => (plist.map ProviderPatch.id).contains p.id) := by
  unfold updateConfig
  cases strat with
  | none =>
    cases de with
    | none => rfl
    | some e => by_cases he : e = 0 <;> simp [he]
  | some str =>
    cases de with
    | none => by_cases hs : str = "" <;> simp [hs]
    | some e => by_cases hs : str = "" <;> by_cases he : e = 0 <;> simp [hs, he]

/-- C3 (amended): a config update with removeStaleProviders set and an
incoming list omitting id X does remove every provider named X from the
registry, but X's usage record is NOT deleted: the usage-map entry for X
(and hence its contribution to getStats totalRequests) is exactly what it
was before the update. -/
theorem staleRemoval_keepsUsage (s : MBState) (plist : List ProviderPatch) (X : String)
    (strat : Option String) (de : Option ℕ)
    (hX : X ∉ plist.map ProviderPatch.id) :
    (∀ p ∈ (updateConfig s { providers := some plist, removeStaleProviders := true,
                             loadBalanceStrategy := strat, defaultExpiry := de }).providers, p.id ≠ X) ∧
    getUsage (updateConfig s { providers := some plist, removeStaleProviders := true,
                               loadBalanceStrategy := strat, defaultExpiry := de }).providerUsage X =
      getUsage s.providerUsage X := by
  constructor
  · intro p hp
    rw [updateConfig_providers_stale] at hp
    have hmem := List.of_mem_filter hp
    have hin : p.id ∈ plist.map ProviderPatch.id := by
      simpa using hmem
    intro hc
    rw [hc] at hin
    exact hX hin
  · rw [updateConfig_usage]
    exact foldPatch_usage_other plist X hX s

def c3s : MBState :=
  { providers := [{ id := "s3-main", type := "s3", bucket := "m" },
                  { id := "r2-x", type := "r2", bucket := "x" }],
    loadBalanceStrategy := "round-robin", defaultExpiry := 3600, currentProviderIndex := 0,
    providerUsage := [("s3-main", { requestCount := 3, errorCount := 0, lastUsed := 0, rateLimit := 1000 }),
                      ("r2-x", { requestCount := 7, errorCount := 2, lastUsed := 0, rateLimit := 1000 })] }

def c3cfg : ConfigData :=
  { providers := some [{ id := "s3-main", type := some "s3", bucket := some "m" }],
    removeStaleProviders := true }

/-- C3 (counterexample): after a stale-removing update that omits r2-x, the
provider list is down to s3-main, yet r2-x's usage record (7 requests,
2 errors) is still in the tracker and getStats totalRequests is 10, not the
3 the claim predicts after full removal of r2-x's counters. -/
theorem staleRemoval_claimFalse :
    (updateConfig c3s c3cfg).providers.map Provider.id = ["s3-main"] ∧
    getUsage (updateConfig c3s c3cfg).providerUsage "r2-x" =
      some { requestCount := 7, errorCount := 2, lastUsed := 0, rateLimit := 1000 } ∧
    (getStats (updateConfig c3s c3cfg)).totalRequests = 10 ∧
    ¬ (getStats (updateConfig c3s c3cfg)).totalRequests = 3 := by
  refine ⟨by decide, by decide, by decide, by decide⟩

theorem staleRemoval_keepsUsage_witness :
    ("r2-x" ∉ ([{ id := "s3-main", type := some "s3", bucket := some "m" }] : List ProviderPatch).map ProviderPatch.id) ∧
    ((∀ p ∈ (updateConfig c3s { providers := some [{ id := "s3-main", type := some "s3", bucket := some "m" }],
                                removeStaleProviders := true, loadBalanceStrategy := none,
                                defaultExpiry := none }).providers, p.id ≠ "r2-x") ∧
     getUsage (updateConfig c3s { providers := some [{ id := "s3-main", type := some "s3", bucket := some "m" }],
                                  removeStaleProviders := true, loadBalanceStrategy := none,
                                  defaultExpiry := none }).providerUsage "r2-x" =
       getUsage c3s.providerUsage "r2-x") :=
  ⟨by decide, staleRemoval_keepsUsage c3s _ "r2-x" none none (by decide)⟩

theorem foldl_add_counts (l : List (String × Usage)) (n : ℕ) :
    l.foldl (fun sum kv => sum + kv.2.requestCount) n = n + (l.map (fun kv => kv.2.requestCount)).sum := by
  induction l generalizing n with
  | nil => simp
  | cons kv rest ih =>
    rw [List.foldl_cons, ih]
    simp
    omega

theorem aligned_sum (ps : List Provider) :
    ∀ us : UsageMap, us.map Prod.fst = ps.map Provider.id → (ps.map Provider.id).Nodup →
      (us.map (fun kv => kv.2.requestCount)).sum =
        (ps.map (fun p => (usageOf us p.id).requestCount)).sum := by
  induction ps with
  | nil =>
    intro us hkeys _
    have : us = [] := by
      cases us with
      | nil => rfl
      | cons kv ut => simp at hkeys
    simp [this]
  | cons p pt ih =>
    intro us hkeys hnd
    cases us with
    | nil => simp at hkeys
    | cons kv ut =>
      simp only [List.map_cons, List.cons.injEq] at hkeys
      rcases hkeys with ⟨hk1, hkt⟩
      have hself : usageOf (kv :: ut) p.id = kv.2 := by
        simp [usageOf, getUsage, List.find?, hk1]
      rw [List.map_cons, List.nodup_cons] at hnd
      obtain ⟨hnd1, hndt⟩ := hnd
      have hrest : ∀ q ∈ pt, usageOf (kv :: ut) q.id = usageOf ut q.id := by
        intro q hq
        have hne : ¬ (kv.1 == q.id) = true := by
          simp [hk1]
          intro hc
          exact hnd1 (by rw [hc]; exact List.mem_map_of_mem Provider.id hq)
        simp [usageOf, getUsage, List.find?, hne]
      calc ((kv :: ut).map (fun x => x.2.requestCount)).sum
          = kv.2.requestCount + (ut.map (fun x => x.2.requestCount)).sum := by simp
        _ = kv.2.requestCount + (pt.map (fun q => (usageOf ut q.id).requestCount)).sum := by
            rw [ih ut hkt hndt]
        _ = (usageOf (kv :: ut) p.id).requestCount +
              (pt.map (fun q => (usageOf (kv :: ut) q.id).requestCount)).sum := by
            have hmaps : pt.map (fun q => (usageOf ut q.id).requestCount) =
                pt.map (fun q => (usageOf (kv :: ut) q.id).requestCount) :=
              List.map_congr_left (fun q hq => by rw [hrest q hq])
            rw [hself, hmaps]
        _ = ((p :: pt).map (fun q => (usageOf (kv :: ut) q.id).requestCount)).sum := by simp

/-- C4 (amended): getStats reports providerCount = number of providers and
totalRequests = sum of the providers' requestCounts (on states whose usage
map is keyed exactly by the provider ids); each per-provider errorRate is
the 4-decimal fixed string of errorCount/requestCount when requestCount is
positive, and the NUMBER 0 — not the string "0" — when requestCount is 0. -/
theorem getStats_spec (s : MBState) (hkeys : keysAligned s)
    (hnd : (s.providers.map Provider.id).Nodup) :
    (getStats s).providerCount = s.providers.length ∧
    (getStats s).totalRequests =
      (s.providers.map (fun p => (usageOf s.providerUsage p.id).requestCount)).sum ∧
    ∀ st ∈ (getStats s).providerStats,
      (st.requestCount = 0 → st.errorRate = ErrorRateVal.num 0) ∧
      (0 < st.requestCount → st.errorRate =
        ErrorRateVal.str (toFixed4 (Frac.div (Frac.ofInt st.errorCount) (Frac.ofInt st.requestCount)))) := by
  refine ⟨rfl, ?_, ?_⟩
  · show s.providerUsage.foldl (fun sum kv => sum + kv.2.requestCount) 0 = _
    rw [foldl_add_counts, Nat.zero_add]
    exact aligned_sum s.providers s.providerUsage hkeys hnd
  · intro st hst
    rcases List.mem_map.mp hst with ⟨p, _, hpst⟩
    subst hpst
    constructor
    · intro h0
      simp only at h0
      simp [h0]
    · intro hpos
      simp only at hpos
      simp [Nat.pos_iff_ne_zero.mp hpos]

def c4zero : MBState :=
  { providers := [{ id := "p", type := "s3", bucket := "b" }],
    loadBalanceStrategy := "round-robin", defaultExpiry := 3600, currentProviderIndex := 0,
    providerUsage := [("p", { requestCount := 0, errorCount := 0, lastUsed := 0, rateLimit := 1000 })] }

/-- C4 (counterexample): on a provider with requestCount 0, the errorRate
field is the bare number 0, which is not the string "0" the claim
requires. -/
theorem getStats_zeroRate_claimFalse :
    (getStats c4zero).providerStats.map ProviderStat.errorRate = [ErrorRateVal.num 0] ∧
    ErrorRateVal.num 0 ≠ ErrorRateVal.str "0" := by
  refine ⟨by decide, by decide⟩

def c4s : MBState :=
  { providers := [{ id := "test-s3", type := "s3", bucket := "bA" },
                  { id := "test-r2", type := "r2", bucket := "bB" }],
    loadBalanceStrategy := "round-robin", defaultExpiry := 3600, currentProviderIndex := 0,
    providerUsage := [("test-s3", { requestCount := 100, errorCount := 5, lastUsed := 0, rateLimit := 1000 }),
                      ("test-r2", { requestCount := 50, errorCount := 2, lastUsed := 0, rateLimit := 1000 })] }

theorem getStats_spec_witness :
    keysAligned c4s ∧ (c4s.providers.map Provider.id).Nodup ∧
    ((getStats c4s).providerCount = c4s.providers.length ∧
     (getStats c4s).totalRequests =
       (c4s.providers.map (fun p => (usageOf c4s.providerUsage p.id).requestCount)).sum ∧
     ∀ st ∈ (getStats c4s).providerStats,
       (st.requestCount = 0 → st.errorRate = ErrorRateVal.num 0) ∧
       (0 < st.requestCount → st.errorRate =
         ErrorRateVal.str (toFixed4 (Frac.div (Frac.ofInt st.errorCount) (Frac.ofInt st.requestCount))))) ∧
    (getStats c4s).totalRequests = 150 ∧
    (getStats c4s).providerStats.map ProviderStat.errorRate =
      [ErrorRateVal.str "0.0500", ErrorRateVal.str "0.0400"] :=
  ⟨by decide, by decide, getStats_spec c4s (by decide) (by decide), by decide, by decide⟩

theorem initFold_notin (ps : List Provider) (k : String) (hk : k ∉ ps.map Provider.id) :
    ∀ m : UsageMap,
      getUsage (ps.foldl (fun m p => setUsage m p.id (initUsageRecord p)) m) k = getUsage m k := by
  induction ps with
  | nil => intro m; rfl
  | cons q rest ih =>
    intro m
    have hq : q.id ≠ k := by
      intro hc
      exact hk (by simp [hc])
    have hrest : k ∉ rest.map Provider.id := by
      intro hc
      exact hk (by simp [hc])
    rw [List.foldl_cons, ih hrest, getUsage_setUsage_ne _ _ _ _ hq]

theorem mkMultiBucket_usage (ps : List Provider) :
    ∀ m : UsageMap, (ps.map Provider.id).Nodup → ∀ p ∈ ps,
      getUsage (ps.foldl (fun m p => setUsage m p.id (initUsageRecord p)) m) p.id =
        some (initUsageRecord p) := by
  induction ps with
  | nil => intro m _ p hp; simp at hp
  | cons q rest ih =>
    intro m hnd p hp
    rw [List.map_cons, List.nodup_cons] at hnd
    obtain ⟨hq, hndt⟩ := hnd
    rcases List.mem_cons.mp hp with h1 | h1
    · subst h1
      rw [List.foldl_cons, initFold_notin rest p.id hq, getUsage_setUsage_self]
    · rw [List.foldl_cons]
      exact ih (setUsage m q.id (initUsageRecord q)) hndt p h1

theorem updateFirst_ids (ps : List Provider) (np : ProviderPatch) :
    (updateFirst ps np).map Provider.id = ps.map Provider.id := by
  induction ps with
  | nil => rfl
  | cons p rest ih =>
    unfold updateFirst
    by_cases h : (p.id == np.id) = true
    · rw [if_pos h]
      have he : p.id = np.id := by simpa using h
      simp [mergeProvider, he]
    · rw [if_neg h]
      simp [ih]

theorem foldPatch_usage_existing (plist : List ProviderPatch) :
    ∀ st : MBState,
      (∀ np ∈ plist, (st.providers.map Provider.id).any (fun i => i == np.id) = true) →
      (plist.foldl applyPatch st).providerUsage = st.providerUsage ∧
      (plist.foldl applyPatch st).providers.map Provider.id = st.providers.map Provider.id := by
  induction plist with
  | nil => intro st _; exact ⟨rfl, rfl⟩
  | cons np rest ih =>
    intro st hall
    have hnp : (st.providers.map Provider.id).any (fun i => i == np.id) = true :=
      hall np (by simp)
    have hcond : st.providers.any (fun p => p.id == np.id) = true := by
      rcases List.any_eq_true.mp hnp with ⟨i, hi, hbeq⟩
      rcases List.mem_map.mp hi with ⟨p, hp, rfl⟩
      exact List.any_eq_true.mpr ⟨p, hp, hbeq⟩
    have hstep : applyPatch st np = { st with providers := updateFirst st.providers np } := by
      unfold applyPatch
      rw [if_pos hcond]
    have hids : (applyPatch st np).providers.map Provider.id = st.providers.map Provider.id := by
      rw [hstep]
      exact updateFirst_ids st.providers np
    have husage : (applyPatch st np).providerUsage = st.providerUsage := by
      rw [hstep]
    have hall2 : ∀ np2 ∈ rest, ((applyPatch st np).providers.map Provider.id).any (fun i => i == np2.id) = true := by
      intro np2 h2
      rw [hids]
      exact hall np2 (by simp [h2])
    rcases ih (applyPatch st np) hall2 with ⟨ihu, ihp⟩
    rw [List.foldl_cons]
    exact ⟨by rw [ihu, husage], by rw [ihp, hids]⟩

theorem select_state_shape (s : MBState) (now rand01 : Frac) (sel : Provider) (s2 : MBState)
    (h : getStorageProvider s now rand01 = Except.ok (sel, s2)) :
    ∀ k, (usageOf s2.providerUsage k).rateLimit = (usageOf s.providerUsage k).rateLimit := by
  intro k
  unfold getStorageProvider at h
  split at h
  · exact absurd h (by simp)
  · cases hsc : strategyCandidate s rand01 with
    | error e => rw [hsc] at h; exact absurd h (by simp)
    | ok cs =>
      obtain ⟨cand, s1⟩ := cs
      rw [hsc] at h
      simp only [Except.ok.injEq, Prod.mk.injEq] at h
      obtain ⟨hsel, hstate⟩ := h
      obtain ⟨hprov, husage, _, _⟩ := strategyCandidate_preserves s rand01 cand s1 hsc
      subst hstate
      by_cases hk : cand.id = k
      · subst hk
        show (usageOf (setUsage s1.providerUsage cand.id _) cand.id).rateLimit = _
        simp only [usageOf, getUsage_setUsage_self, Option.getD_some]
        rw [husage]
      · show (usageOf (setUsage s1.providerUsage cand.id _) k).rateLimit = _
        simp only [usageOf]
        rw [getUsage_setUsage_ne _ _ _ _ hk, husage]

/-- C9 (amended): usage records copy the provider's configured
`rateLimit || 1000` at construction, and selection never changes any usage
record's rateLimit; but a config merge whose incoming providers all match
existing ids leaves the usage map entirely unchanged — so changing an
existing provider's rateLimit updates only the provider object, while the
usage record's copy (the one the rate gate reads) keeps its old value. -/
theorem usageRateLimit_spec :
    (∀ (ps : List Provider) (strat : String) (de : ℕ) (p : Provider),
       (ps.map Provider.id).Nodup → p ∈ ps →
       getUsage (mkMultiBucket ps strat de).providerUsage p.id = some (initUsageRecord p)) ∧
    (∀ (s : MBState) (plist : List ProviderPatch) (rStale : Bool) (strat : Option String) (de : Option ℕ),
       (∀ np ∈ plist, s.providers.any (fun p => p.id == np.id) = true) →
       (updateConfig s { providers := some plist, removeStaleProviders := rStale,
                         loadBalanceStrategy := strat, defaultExpiry := de }).providerUsage =
         s.providerUsage) ∧
    (∀ (s : MBState) (now rand01 : Frac) (sel : Provider) (s2 : MBState) (k : String),
       getStorageProvider s now rand01 = Except.ok (sel, s2) →
       (usageOf s2.providerUsage k).rateLimit = (usageOf s.providerUsage k).rateLimit) := by
  refine ⟨?_, ?_, ?_⟩
  · intro ps strat de p hnd hp
    exact mkMultiBucket_usage ps [] hnd p hp
  · intro s plist rStale strat de hall
    rw [updateConfig_usage]
    refine (foldPatch_usage_existing plist s ?_).1
    intro np hnp
    rcases List.any_eq_true.mp (hall np hnp) with ⟨p, hp, hbeq⟩
    exact List.any_eq_true.mpr ⟨p.id, List.mem_map_of_mem Provider.id hp, hbeq⟩
  · intro s now rand01 sel s2 k h
    exact select_state_shape s now rand01 sel s2 h k

def c9pA : Provider := { id := "s3-main", type := "s3", bucket := "m" }

def c9pB : Provider := { id := "r2-x", type := "r2", bucket := "x" }

def c9s : MBState := mkMultiBucket [c9pA, c9pB] "round-robin" 3600

def c9patch : ProviderPatch := { id := "s3-main", rateLimit := some ⟨200, 1⟩ }

def c9cfg : ConfigData := { providers := some [c9patch] }

/-- C9 (counterexample): merging a patch that sets s3-main's rateLimit to
200 updates the provider object to 200 but leaves the usage record's copy
at the constructor default 1000, so the invariant relating the two is
broken (and the rate gate keeps using 1000). -/
theorem usageRateLimit_claimFalse :
    ((updateConfig c9s c9cfg).providers.find? (fun p => p.id == "s3-main")).map Provider.rateLimit =
      some (some ⟨200, 1⟩) ∧
    (usageOf (updateConfig c9s c9cfg).providerUsage "s3-main").rateLimit = ⟨1000, 1⟩ ∧
    ((1000 : ℤ) : ℚ) / ((1 : ℤ) : ℚ) ≠ ((200 : ℤ) : ℚ) / ((1 : ℤ) : ℚ) ∧
    (updateConfig c9s c9cfg).providers.map Provider.id = ["s3-main", "r2-x"] := by
  refine ⟨by decide, by decide, by norm_num, by decide⟩

def c9ss : MBState := mkMultiBucket [{ id := "p", type := "s3", bucket := "b" }] "round-robin" 3600

def c9pp : Provider := { id := "p", type := "s3", bucket := "b" }

def c9ss2 : MBState :=
  { providers := [c9pp], loadBalanceStrategy := "round-robin", defaultExpiry := 3600,
    currentProviderIndex := 0,
    providerUsage := [("p", { requestCount := 1, errorCount := 0, lastUsed := ⟨1000, 1⟩, rateLimit := ⟨1000, 1⟩ })] }

theorem usageRateLimit_spec_witness :
    (([c9pA, c9pB].map Provider.id).Nodup ∧ c9pA ∈ [c9pA, c9pB] ∧
     getUsage (mkMultiBucket [c9pA, c9pB] "round-robin" 3600).providerUsage c9pA.id =
       some (initUsageRecord c9pA)) ∧
    ((∀ np ∈ [c9patch], c9s.providers.any (fun p => p.id == np.id) = true) ∧
     (updateConfig c9s { providers := some [c9patch], removeStaleProviders := false,
                         loadBalanceStrategy := none, defaultExpiry := none }).providerUsage =
       c9s.providerUsage) ∧
    (getStorageProvider c9ss ⟨1000, 1⟩ 0 = Except.ok (c9pp, c9ss2) ∧
     (usageOf c9ss2.providerUsage "p").rateLimit = (usageOf c9ss.providerUsage "p").rateLimit) :=
  ⟨⟨by decide, by decide, usageRateLimit_spec.1 [c9pA, c9pB] "round-robin" 3600 c9pA (by decide) (by decide)⟩,
   ⟨by decide, usageRateLimit_spec.2.1 c9s [c9patch] false none none (by decide)⟩,
   ⟨by decide, usageRateLimit_spec.2.2 c9ss ⟨1000, 1⟩ 0 c9pp c9ss2 "p" (by decide)⟩⟩

theorem strategyCandidate_roundRobin (s : MBState) (rand01 : Frac) (p : Provider)
    (hstrat : s.loadBalanceStrategy = "round-robin")
    (hget : s.providers[s.currentProviderIndex]? = some p) :
    strategyCandidate s rand01 =
      Except.ok (p, { s with currentProviderIndex := (s.currentProviderIndex + 1) % s.providers.length }) := by
  cases hps : s.providers with
  | nil => rw [hps] at hget; simp at hget
  | cons p0 rest =>
    rw [hps] at hget
    simp [strategyCandidate, hps, hstrat, hget]

def rr3s : MBState :=
  mkMultiBucket
    [{ id := "test-s3", type := "s3", bucket := "bA" },
     { id := "test-r2", type := "r2", bucket := "bB" }] "round-robin" 3600

/-- C6: under round-robin, getStorageProvider returns the provider at the
cursor and advances the cursor modulo the list length (when that provider
passes its rate gate), and over two fresh providers three successive calls
return A, B, A with the cursor wrapping back to 0 after the second call. -/
theorem roundRobin_spec :
    (∀ (s : MBState) (now rand01 : Frac) (p : Provider),
       s.loadBalanceStrategy = "round-robin" →
       s.providers[s.currentProviderIndex]? = some p →
       ¬ rateLimited s.providerUsage now p.id →
       getStorageProvider s now rand01 =
         Except.ok (p,
           { s with currentProviderIndex := (s.currentProviderIndex + 1) % s.providers.length,
                    providerUsage := setUsage s.providerUsage p.id
                      { usageOf s.providerUsage p.id with
                          requestCount := (usageOf s.providerUsage p.id).requestCount + 1,
                          lastUsed := now } })) ∧
    (runSelections rr3s [1000, 2000, 3000]).1 = ["test-s3", "test-r2", "test-s3"] ∧
    (runSelections rr3s [1000]).2.currentProviderIndex = 1 ∧
    (runSelections rr3s [1000, 2000]).2.currentProviderIndex = 0 := by
  refine ⟨?_, by decide, by decide, by decide⟩
  intro s now rand01 p hstrat hget hgate
  have hlen : ¬ s.providers.length = 0 := by
    intro h0
    rw [List.length_eq_zero.mp h0] at hget
    simp at hget
  have hsc := strategyCandidate_roundRobin s rand01 p hstrat hget
  unfold getStorageProvider
  rw [if_neg hlen, hsc]
  simp only []
  rw [if_neg hgate]

theorem roundRobin_spec_witness :
    rr3s.loadBalanceStrategy = "round-robin" ∧
    rr3s.providers[rr3s.currentProviderIndex]? = some { id := "test-s3", type := "s3", bucket := "bA" } ∧
    ¬ rateLimited rr3s.providerUsage 1000 "test-s3" ∧
    getStorageProvider rr3s 1000 0 =
      Except.ok ({ id := "test-s3", type := "s3", bucket := "bA" },
        { rr3s with currentProviderIndex := (rr3s.currentProviderIndex + 1) % rr3s.providers.length,
                    providerUsage := setUsage rr3s.providerUsage "test-s3"
                      { usageOf rr3s.providerUsage "test-s3" with
                          requestCount := (usageOf rr3s.providerUsage "test-s3").requestCount + 1,
                          lastUsed := 1000 } }) :=
  ⟨rfl, by decide, by decide,
   roundRobin_spec.1 rr3s 1000 0 { id := "test-s3", type := "s3", bucket := "bA" } rfl (by decide) (by decide)⟩

/-- C7: the rate-limit gate is soft: when the strategy candidate is itself
rate limited, getStorageProvider still succeeds, returning the first
provider in list order whose own gate is satisfied, or the original
candidate when every provider is rate limited — never an error. -/
theorem rateGate_soft (s : MBState) (now rand01 : Frac) (cand : Provider) (s1 : MBState)
    (hcand : strategyCandidate s rand01 = Except.ok (cand, s1))
    (hlim : rateLimited s.providerUsage now cand.id) :
    ∃ sel s2, getStorageProvider s now rand01 = Except.ok (sel, s2) ∧
      ((∃ pre post, s.providers = pre ++ sel :: post ∧
          ¬ rateLimited s.providerUsage now sel.id ∧
          ∀ q ∈ pre, rateLimited s.providerUsage now q.id) ∨
       (sel = cand ∧ ∀ q ∈ s.providers, rateLimited s.providerUsage now q.id)) := by
  obtain ⟨hprov, husage, _, _⟩ := strategyCandidate_preserves s rand01 cand s1 hcand
  have hlen : ¬ s.providers.length = 0 := by
    intro h0
    have hnil := List.length_eq_zero.mp h0
    rw [strategyCandidate, hnil] at hcand
    simp at hcand
  unfold getStorageProvider
  rw [if_neg hlen, hcand]
  simp only []
  rw [husage, hprov, if_pos hlim]
  cases hf : s.providers.find? (fun p => decide (¬ rateLimited s.providerUsage now p.id)) with
  | some q =>
    rcases find_first _ _ _ hf with ⟨pre, post, hdec, hq, hpre⟩
    refine ⟨q, _, rfl, Or.inl ⟨pre, post, hdec, of_decide_eq_true hq, ?_⟩⟩
    intro x hx
    have := hpre x hx
    simpa using of_decide_eq_false this
  | none =>
    refine ⟨cand, _, rfl, Or.inr ⟨rfl, ?_⟩⟩
    intro x hx
    have := List.find?_eq_none.mp hf x hx
    simpa using this

def c7A : Provider := { id := "gA", type := "s3", bucket := "a" }

def c7B : Provider := { id := "gB", type := "r2", bucket := "b" }

def c7s : MBState :=
  { providers := [c7A, c7B], loadBalanceStrategy := "round-robin", defaultExpiry := 3600,
    currentProviderIndex := 0,
    providerUsage := [("gA", { requestCount := 3, errorCount := 0, lastUsed := 1000, rateLimit := 1000 }),
                      ("gB", { requestCount := 5, errorCount := 0, lastUsed := 0, rateLimit := 1000 })] }

theorem rateGate_soft_witness :
    strategyCandidate c7s 0 = Except.ok (c7A, { c7s with currentProviderIndex := 1 }) ∧
    rateLimited c7s.providerUsage 1000 c7A.id ∧
    (∃ sel s2, getStorageProvider c7s 1000 0 = Except.ok (sel, s2) ∧
      ((∃ pre post, c7s.providers = pre ++ sel :: post ∧
          ¬ rateLimited c7s.providerUsage 1000 sel.id ∧
          ∀ q ∈ pre, rateLimited c7s.providerUsage 1000 q.id) ∨
       (sel = c7A ∧ ∀ q ∈ c7s.providers, rateLimited c7s.providerUsage 1000 q.id))) :=
  ⟨by decide, by decide,
   rateGate_soft c7s 1000 0 c7A { c7s with currentProviderIndex := 1 } (by decide) (by decide)⟩

theorem Frac.lt_iff (a b : Frac) (ha : 0 < a.den) (hb : 0 < b.den) :
    Frac.Lt a b ↔ a.toRat < b.toRat := by
  have hD : (0 : ℤ) < a.den * b.den := mul_pos ha hb
  have hZ : Frac.Lt a b ↔ a.num * b.den < b.num * a.den := by
    unfold Frac.Lt
    constructor
    · intro h
      nlinarith
    · intro h
      have hX : (0 : ℤ) < b.num * a.den - a.num * b.den := by omega
      exact mul_pos hX hD
  rw [hZ]
  unfold Frac.toRat
  rw [div_lt_div_iff₀ (by exact_mod_cast ha) (by exact_mod_cast hb)]
  constructor
  · intro h
    exact_mod_cast h
  · intro h
    exact_mod_cast h

theorem errRate_den_pos (m : UsageMap) (p : Provider) : 0 < (errRate m p).den := by
  unfold errRate Frac.div Frac.ofInt
  by_cases h : (usageOf m p.id).requestCount = 0
  · simp [h]
  · simp only [h, if_false]
    have : 0 < (usageOf m p.id).requestCount := Nat.pos_of_ne_zero h
    simpa using this

theorem errRate_toRat (m : UsageMap) (p : Provider) :
    (errRate m p).toRat = specErrRate m p := by
  unfold errRate specErrRate Frac.toRat Frac.div Frac.ofInt
  by_cases h : (usageOf m p.id).requestCount = 0
  · simp [h]
  · have h1 : (1 : ℚ) ≤ ((usageOf m p.id).requestCount : ℚ) := by
      exact_mod_cast Nat.one_le_iff_ne_zero.mpr h
    simp only [h, if_false]
    rw [max_eq_left h1]
    push_cast
    ring

theorem errLt_iff (m : UsageMap) (a b : Provider) :
    Frac.Lt (errRate m a) (errRate m b) ↔ specErrRate m a < specErrRate m b := by
  rw [Frac.lt_iff _ _ (errRate_den_pos m a) (errRate_den_pos m b), errRate_toRat, errRate_toRat]

/-- errFold names the least-errors reduce so its minimization properties
can be stated once. -/
def errFold (m : UsageMap) (l : List Provider) (a : Provider) : Provider :=
  l.foldl (fun least current =>
    if Frac.Lt (errRate m current) (errRate m least) then current else least) a

theorem errFold_spec (m : UsageMap) (l : List Provider) :
    ∀ a : Provider,
      (errFold m l a = a ∨
        ∃ pre post, l = pre ++ errFold m l a :: post ∧
          specErrRate m (errFold m l a) < specErrRate m a ∧
          ∀ q ∈ pre, specErrRate m (errFold m l a) < specErrRate m q) ∧
      specErrRate m (errFold m l a) ≤ specErrRate m a ∧
      (∀ p ∈ l, specErrRate m (errFold m l a) ≤ specErrRate m p) := by
  induction l with
  | nil =>
    intro a
    exact ⟨Or.inl rfl, le_refl _, by simp⟩
  | cons c t ih =>
    intro a
    by_cases hca : Frac.Lt (errRate m c) (errRate m a)
    · have hstep : errFold m (c :: t) a = errFold m t c := by
        unfold errFold
        rw [List.foldl_cons, if_pos hca]
      have hlt : specErrRate m c < specErrRate m a := (errLt_iff m c a).mp hca
      obtain ⟨ih1, ih2, ih3⟩ := ih c
      rw [hstep]
      set r := errFold m t c with hr
      refine ⟨?_, le_of_lt (lt_of_le_of_lt ih2 hlt), ?_⟩
      · rcases ih1 with he | ⟨pre, post, hdec, hlt2, hpre⟩
        · refine Or.inr ⟨[], t, by simp [he], by rw [he]; exact hlt, by simp⟩
        · refine Or.inr ⟨c :: pre, post, by rw [hdec]; simp, lt_trans hlt2 hlt, ?_⟩
          intro q hq
          rcases List.mem_cons.mp hq with h1 | h1
          · rw [h1]; exact hlt2
          · exact hpre q h1
      · intro p hp
        rcases List.mem_cons.mp hp with h1 | h1
        · rw [h1]; exact ih2
        · exact ih3 p h1
    · have hstep : errFold m (c :: t) a = errFold m t a := by
        unfold errFold
        rw [List.foldl_cons, if_neg hca]
      have hge : specErrRate m a ≤ specErrRate m c :=
        le_of_not_lt (fun hlt => hca ((errLt_iff m c a).mpr hlt))
      obtain ⟨ih1, ih2, ih3⟩ := ih a
      rw [hstep]
      set r := errFold m t a with hr
      refine ⟨?_, ih2, ?_⟩
      · rcases ih1 with he | ⟨pre, post, hdec, hlt2, hpre⟩
        · exact Or.inl he
        · refine Or.inr ⟨c :: pre, post, by rw [hdec]; simp, hlt2, ?_⟩
          intro q hq
          rcases List.mem_cons.mp hq with h1 | h1
          · rw [h1]; exact lt_of_lt_of_le hlt2 hge
          · exact hpre q h1
      · intro p hp
        rcases List.mem_cons.mp hp with h1 | h1
        · rw [h1]; exact le_trans ih2 hge
        · exact ih3 p h1

/-- C8: under least-errors, with no provider rate limited, getStorageProvider
returns the provider minimizing errorCount / max(requestCount, 1) (the
max keeps the quotient well defined, with a positive denominator), breaking
ties in favor of the earliest provider in list order. -/
theorem leastErrors_spec (s : MBState) (now rand01 : Frac) (p0 : Provider) (rest : List Provider)
    (hps : s.providers = p0 :: rest)
    (hstrat : s.loadBalanceStrategy = "least-errors")
    (hgate : ∀ p ∈ s.providers, ¬ rateLimited s.providerUsage now p.id) :
    ∃ sel s2, getStorageProvider s now rand01 = Except.ok (sel, s2) ∧
      sel ∈ s.providers ∧
      (∀ p ∈ s.providers, specErrRate s.providerUsage sel ≤ specErrRate s.providerUsage p) ∧
      (∃ pre post, s.providers = pre ++ sel :: post ∧
         ∀ q ∈ pre, specErrRate s.providerUsage sel < specErrRate s.providerUsage q) ∧
      (∀ p ∈ s.providers,
         specErrRate s.providerUsage p =
           ((usageOf s.providerUsage p.id).errorCount : ℚ) /
             max ((usageOf s.providerUsage p.id).requestCount : ℚ) 1 ∧
         (0 : ℚ) < max ((usageOf s.providerUsage p.id).requestCount : ℚ) 1) := by
  have hlen : ¬ s.providers.length = 0 := by rw [hps]; simp
  have hsc : strategyCandidate s rand01 =
      Except.ok ((p0 :: rest).foldl
        (fun least current =>
          if Frac.Lt (errRate s.providerUsage current) (errRate s.providerUsage least)
          then current else least) p0, s) := by
    simp [strategyCandidate, hps, hstrat]
  have hfold0 : (p0 :: rest).foldl
      (fun least current =>
        if Frac.Lt (errRate s.providerUsage current) (errRate s.providerUsage least)
        then current else least) p0 = errFold s.providerUsage rest p0 := by
    rw [List.foldl_cons, if_neg (fun hlt => lt_irrefl _ ((errLt_iff _ _ _).mp hlt))]
    rfl
  obtain ⟨h1, h2, h3⟩ := errFold_spec s.providerUsage rest p0
  set r := errFold s.providerUsage rest p0 with hr
  have hmem : r ∈ s.providers := by
    rw [hps]
    rcases h1 with he | ⟨pre, post, hdec, _, _⟩
    · rw [he]; exact List.mem_cons_self _ _
    · rw [hdec]; exact List.mem_cons_of_mem _ (by simp)
  have heq : ∃ s2, getStorageProvider s now rand01 = Except.ok (r, s2) := by
    unfold getStorageProvider
    rw [if_neg hlen, hsc]
    simp only []
    rw [hfold0, if_neg (hgate _ hmem)]
    exact ⟨_, rfl⟩
  obtain ⟨s2, heq⟩ := heq
  refine ⟨r, s2, heq, hmem, ?_, ?_, ?_⟩
  · rw [hps]
    intro p hp
    rcases List.mem_cons.mp hp with hh | hh
    · rw [hh]; exact h2
    · exact h3 p hh
  · rcases h1 with he | ⟨pre, post, hdec, hltp0, hpre⟩
    · exact ⟨[], rest, by simp [hps, he], by simp⟩
    · refine ⟨p0 :: pre, post, by rw [hps, hdec]; simp, ?_⟩
      intro q hq
      rcases List.mem_cons.mp hq with hh | hh
      · rw [hh]; exact hltp0
      · exact hpre q hh
  · intro p _
    exact ⟨rfl, lt_of_lt_of_le zero_lt_one (le_max_right _ _)⟩

def c8A : Provider := { id := "eA", type := "s3", bucket := "a" }

def c8B : Provider := { id := "eB", type := "r2", bucket := "b" }

def c8s : MBState :=
  { providers := [c8A, c8B], loadBalanceStrategy := "least-errors", defaultExpiry := 3600,
    currentProviderIndex := 0,
    providerUsage := [("eA", { requestCount := 10, errorCount := 2, lastUsed := 0, rateLimit := 1000 }),
                      ("eB", { requestCount := 5, errorCount := 0, lastUsed := 0, rateLimit := 1000 })] }

theorem leastErrors_spec_witness :
    c8s.providers = c8A :: [c8B] ∧
    c8s.loadBalanceStrategy = "least-errors" ∧
    (∀ p ∈ c8s.providers, ¬ rateLimited c8s.providerUsage 1000 p.id) ∧
    (∃ sel s2, getStorageProvider c8s 1000 0 = Except.ok (sel, s2) ∧
      sel ∈ c8s.providers ∧
      (∀ p ∈ c8s.providers, specErrRate c8s.providerUsage sel ≤ specErrRate c8s.providerUsage p) ∧
      (∃ pre post, c8s.providers = pre ++ sel :: post ∧
         ∀ q ∈ pre, specErrRate c8s.providerUsage sel < specErrRate c8s.providerUsage q) ∧
      (∀ p ∈ c8s.providers,
         specErrRate c8s.providerUsage p =
           ((usageOf c8s.providerUsage p.id).errorCount : ℚ) /
             max ((usageOf c8s.providerUsage p.id).requestCount : ℚ) 1 ∧
         (0 : ℚ) < max ((usageOf c8s.providerUsage p.id).requestCount : ℚ) 1)) :=
  ⟨rfl, rfl, by decide, leastErrors_spec c8s 1000 0 c8A [c8B] rfl rfl (by decide)⟩

/-- C10: when generateUploadUrl is called with an explicit providerId that
resolves to an existing (supported) provider, the selector is bypassed: the
returned state is the input state unchanged — no usage record nor the
round-robin cursor is touched — while a signed URL result for exactly that
provider is produced. -/
theorem uploadOverride_frame (s : MBState) (opts : UploadOptions) (now rand01 : Frac)
    (uniqueId : String) (sign : String → String → ℕ → String) (pid : String) (p : Provider)
    (hpid : opts.providerId = some pid) (hne : pid ≠ "")
    (hfind : s.providers.find? (fun q => q.id == pid) = some p)
    (hsupp : supportedType p) :
    (generateUploadUrl s opts now rand01 uniqueId sign).2 = s ∧
    (generateUploadUrl s opts now rand01 uniqueId sign).1.toOption.map (fun r => r.provider) =
      some p.id := by
  have hb : (pid != "") = true := by simpa using hne
  unfold generateUploadUrl
  rw [hpid]
  simp only [hb, Option.getD_some, if_true]
  rw [hfind]
  simp only []
  rw [if_pos hsupp]
  exact ⟨rfl, rfl⟩

def c10s : MBState :=
  mkMultiBucket
    [{ id := "test-s3", type := "s3", bucket := "bA", region := "us-east-1" },
     { id := "test-r2", type := "r2", bucket := "bB", endpoint := "e" }] "round-robin" 3600

def c10opts : UploadOptions :=
  { filename := "test.jpg", contentType := "image/jpeg", path := some "uploads",
    providerId := some "test-r2" }

def c10prov : Provider := { id := "test-r2", type := "r2", bucket := "bB", endpoint := "e" }

theorem uploadOverride_frame_witness :
    c10opts.providerId = some "test-r2" ∧ "test-r2" ≠ "" ∧
    c10s.providers.find? (fun q => q.id == "test-r2") = some c10prov ∧
    supportedType c10prov ∧
    ((generateUploadUrl c10s c10opts 1000 0 "uid" (fun b k _ => b ++ "/" ++ k)).2 = c10s ∧
     (generateUploadUrl c10s c10opts 1000 0 "uid" (fun b k _ => b ++ "/" ++ k)).1.toOption.map
       (fun r => r.provider) = some c10prov.id) :=
  ⟨rfl, by decide, by decide, by decide,
   uploadOverride_frame c10s c10opts 1000 0 "uid" (fun b k _ => b ++ "/" ++ k) "test-r2" c10prov
     rfl (by decide) (by decide) (by decide)⟩

end MB
